import Mathlib

/-!
Shallow embedding of `src/sprinter.js` (the multi-repository fan-out/fan-in
orchestration engine around the GitHub API client).

Modelling conventions used throughout:

* JavaScript objects that are built and read by key are modelled as
  association lists `Obj := List (String × JsVal)`; `objSet` is the JS
  assignment `o[k] = v` (update in place if the key exists, append
  otherwise) and `jsExtend dest src` is underscore's `_.extend(dest, src)`
  (each key of `src` assigned into `dest`, in order, source values winning).
* Where object *identity* matters (the shared-filter hazard of `getIssues`),
  a tiny heap is used: a list of objects indexed by reference number.
* `async.parallel(tasks, cb)` over tasks whose outcomes are determined by
  the environment is modelled by `asyncParallel` on a list of
  `Except ε α` outcomes: the first failing task (in task order) produces
  the overall failure, otherwise the results are assembled in task order.
* The remote GitHub client is the external collaborator; each embedded
  operation takes the client's per-repo responses as an explicit argument
  (one `Except GhErr _` per configured repo, in configured-repo order).
* Timestamps (`updated_at`) are modelled as natural numbers (milliseconds
  since the epoch, which is what `new Date(s) < new Date(t)` compares).
* Strings are Lean `String`s; where character-level reasoning about
  `slug.split('/')` is needed the underlying `List Char` is used.
-/

/-- Values stored in modelled JavaScript objects: strings and numbers. -/
inductive JsVal where
  | str (s : String)
  | num (n : Nat)
deriving DecidableEq

/-- A JavaScript object, as an association list of its own enumerable
properties in insertion order. -/
abbrev Obj := List (String × JsVal)

/-- JS property assignment `o[k] = v`: update the existing property in
place, or append a new one. -/
def objSet : Obj → String → JsVal → Obj
  | [], k, v => [(k, v)]
  | p :: rest, k, v =>
    if p.1 = k then (k, v) :: rest else p :: objSet rest k v

/-- JS property read `o[k]`: the value of the property, if present. -/
def objGet (o : Obj) (k : String) : Option JsVal :=
  (o.find? (fun p => p.1 == k)).map (fun p => p.2)

/-- Underscore's `_.extend(dest, src)`: assign every property of `src`
into `dest`, in order, and return the (mutated) `dest`. -/
def jsExtend (dest src : Obj) : Obj :=
  src.foldl (fun d p => objSet d p.1 p.2) dest

/-- Splits a character list at every `'/'`, keeping empty segments,
exactly like JavaScript's `String.prototype.split('/')`. -/
def splitSlashAux : List Char → List (List Char)
  | [] => [[]]
  | c :: rest =>
    match splitSlashAux rest with
    | [] => []
    | seg :: segs =>
      if c = '/' then [] :: seg :: segs else (c :: seg) :: segs

/-- JavaScript's `slug.split('/')` on a Lean string. -/
def splitSlash (s : String) : List String :=
  (splitSlashAux s.data).map (fun cs => String.mk cs)

/-- Embeds `convertSlugsToObjects` (src/sprinter.js lines 10–14): maps
each slug to `slug.split('/')`, with no validation of any kind. -/
def convertSlugsToObjects (slugs : List String) : List (List String) :=
  slugs.map (fun slug => splitSlash slug)

/-- A configured repository after slug parsing: `(organization, repository)`.
The constructor stores `this.repos`; `_eachRepo` reads `repoSlug[0]` and
`repoSlug[1]`, so well-formed entries are pairs. -/
abbrev Repo := String × String

/-- Canonical `"organization/repository"` slug of a repo, as rebuilt by the
source at tagging time (`org + '/' + repo`). -/
def slugOf (r : Repo) : String := r.1 ++ "/" ++ r.2

/-- A raw error produced by the remote GitHub client. -/
structure GhErr where
  msg : String
deriving DecidableEq

/-- An error after the source's attribution step `err.repo = org + '/' + repo`:
the underlying message plus the offending repo's slug. -/
structure AttrErr where
  msg : String
  repo : String
deriving DecidableEq

/-- Embeds `async.parallel(tasks, cb)` for tasks whose outcomes are fixed
by the environment: the first failed task (in task order) is reported as
the overall failure, otherwise all results in task order. -/
def asyncParallel {ε α : Type} : List (Except ε α) → Except ε (List α)
  | [] => Except.ok []
  | t :: rest =>
    match t with
    | Except.error e => Except.error e
    | Except.ok v =>
      match asyncParallel rest with
      | Except.error e => Except.error e
      | Except.ok vs => Except.ok (v :: vs)

/-- A raw issue as returned by the remote client: its number and its
`updated_at` timestamp (milliseconds). -/
structure RawIssue where
  number : Nat
  updated_at : Nat
deriving DecidableEq

/-- An issue after the aggregation step `issue.repo = org + '/' + repo`:
the raw fields plus the single source-repo tag. -/
structure TaggedIssue where
  number : Nat
  updated_at : Nat
  repo : String
deriving DecidableEq

/-- The comparison underscore's `_.sortBy` effectively sorts by: the
criteria (`new Date(issue.updated_at)`) compared first, with the original
index as tie-breaker, which makes the sort stable and total. -/
def sortByRel (p q : Nat × TaggedIssue) : Prop :=
  p.2.updated_at < q.2.updated_at ∨
    (p.2.updated_at = q.2.updated_at ∧ p.1 ≤ q.1)

instance : DecidableRel sortByRel := by
  intro p q
  unfold sortByRel
  infer_instance

instance : IsTotal (Nat × TaggedIssue) sortByRel := by
  constructor
  intro p q
  rcases Nat.lt_trichotomy p.2.updated_at q.2.updated_at with h | h | h
  · exact Or.inl (Or.inl h)
  · rcases Nat.le_total p.1 q.1 with h2 | h2
    · exact Or.inl (Or.inr ⟨h, h2⟩)
    · exact Or.inr (Or.inr ⟨h.symm, h2⟩)
  · exact Or.inr (Or.inl h)

instance : IsTrans (Nat × TaggedIssue) sortByRel := by
  constructor
  intro p q s hpq hqs
  rcases hpq with h1 | ⟨h1, h1i⟩
  · rcases hqs with h2 | ⟨h2, _⟩
    · exact Or.inl (Nat.lt_trans h1 h2)
    · exact Or.inl (h2 ▸ h1)
  · rcases hqs with h2 | ⟨h2, h2i⟩
    · exact Or.inl (h1 ▸ h2)
    · exact Or.inr ⟨h1.trans h2, Nat.le_trans h1i h2i⟩

/-- The index-carrying form of `sortIssues` (src/sprinter.js lines 19–23):
`_.sortBy` pairs each issue with its index and sorts stably ascending by
`(updated_at, index)`; `.reverse()` then reverses the whole list. -/
def sortIssuesEnum (issues : List TaggedIssue) : List (Nat × TaggedIssue) :=
  (List.insertionSort sortByRel issues.enum).reverse

/-- Embeds `sortIssues` (src/sprinter.js lines 19–23):
`_.sortBy(issues, issue => new Date(issue.updated_at)).reverse()`. -/
def sortIssues (issues : List TaggedIssue) : List TaggedIssue :=
  (sortIssuesEnum issues).map Prod.snd

/-- The tagging step `issue.repo = org + '/' + repo` of line 91, applied
to one raw issue. -/
def tagIssue (r : Repo) (i : RawIssue) : TaggedIssue :=
  { number := i.number, updated_at := i.updated_at, repo := slugOf r }

/-- One per-repo branch of `getIssues` (lines 85–95): on client failure
the error is attributed to the repo; on success every returned issue is
tagged with the repo's slug. -/
def getIssuesBranch (r : Repo) (resp : Except GhErr (List RawIssue)) :
    Except AttrErr (List TaggedIssue) :=
  match resp with
  | Except.error e => Except.error { msg := e.msg, repo := slugOf r }
  | Except.ok issues => Except.ok (issues.map (tagIssue r))

/-- Embeds the data path of `getIssues` (src/sprinter.js lines 80–102):
fan out one `listIssues` call per configured repo (the client's response
for each repo is supplied in `responses`), attribute failures, tag and
flatten successes, and sort the result by `updated_at`. -/
def getIssuesResult (repos : List Repo)
    (responses : List (Except GhErr (List RawIssue))) :
    Except AttrErr (List TaggedIssue) :=
  match asyncParallel ((repos.zip responses).map
      (fun rr => getIssuesBranch rr.1 rr.2)) with
  | Except.error e => Except.error e
  | Except.ok datas => Except.ok (sortIssues datas.flatten)

/-- A heap of JavaScript objects; a reference is an index into the list. -/
abbrev Heap := List Obj

/-- Dereference a heap reference. -/
def heapGet (h : Heap) (r : Nat) : Obj := h.getD r []

/-- Overwrite the object a reference points to. -/
def heapSet (h : Heap) (r : Nat) (o : Obj) : Heap := h.set r o

/-- Embeds the filter-object path of `getIssues` (src/sprinter.js lines
72–84), with object identity made explicit. The caller's `userFilters`
object lives at reference `uref` in `h0`. Line 79 allocates one fresh
object `filters = _.extend({state: 'open'}, userFilters)`; then every
per-repo branch executes `localFilters = _.extend(filters, {user: org,
repo: repo})`, which mutates the single `filters` object in place and
returns that same reference, which is what the branch passes to the
remote call. Returns the final heap, the reference of the merged filter
object, and the list of references dispatched to `listIssues`, one per
repo in configured order. -/
def getIssuesDispatch (repos : List Repo) (h0 : Heap) (uref : Nat) :
    Heap × Nat × List Nat :=
  let fref := h0.length
  let h1 := h0 ++ [jsExtend [("state", JsVal.str "open")] (heapGet h0 uref)]
  let h2 := repos.foldl (fun h r =>
      heapSet h fref (jsExtend (heapGet h fref)
        [("user", JsVal.str r.1), ("repo", JsVal.str r.2)])) h1
  (h2, fref, repos.map (fun _ => fref))

/-- A raw milestone as returned by the remote client. -/
structure RawMilestone where
  number : Nat
  title : String
deriving DecidableEq

/-- A milestone after the aggregation step `milestone.repo = org + '/' + repo`. -/
structure TaggedMilestone where
  number : Nat
  title : String
  repo : String
deriving DecidableEq

/-- The tagging step `milestone.repo = org + '/' + repo` of line 122,
applied to one raw milestone. -/
def tagMilestone (r : Repo) (m : RawMilestone) : TaggedMilestone :=
  { number := m.number, title := m.title, repo := slugOf r }

/-- One per-repo branch of `getMilestones` (lines 112–126): attribute
failures to the repo, tag successes with the repo's slug. -/
def getMilestonesBranch (r : Repo) (resp : Except GhErr (List RawMilestone)) :
    Except AttrErr (List TaggedMilestone) :=
  match resp with
  | Except.error e => Except.error { msg := e.msg, repo := slugOf r }
  | Except.ok ms => Except.ok (ms.map (tagMilestone r))

/-- Embeds the fan-out/flatten part of `getMilestones` (src/sprinter.js
lines 110–134) up to, but not including, the `_.groupBy(milestones,
'title')` of line 131: the tagged milestones of every repo, flattened in
configured-repo order. -/
def getMilestonesFlattened (repos : List Repo)
    (responses : List (Except GhErr (List RawMilestone))) :
    Except AttrErr (List TaggedMilestone) :=
  match asyncParallel ((repos.zip responses).map
      (fun rr => getMilestonesBranch rr.1 rr.2)) with
  | Except.error e => Except.error e
  | Except.ok datas => Except.ok datas.flatten

/-- Members of `Object.prototype`, which the plain object returned by
`_.groupBy` inherits, mapped to the number of elements underscore's
`_.map` iterates over the inherited value. The function-valued members
have a numeric `length` (their arity), so underscore treats them as
array-like of that length; reading `__proto__` yields the
`Object.prototype` object itself, whose own enumerable key set is empty,
so `_.map` iterates zero elements over it. Every other name is absent
from a plain object and reads as `undefined`. -/
def objectProtoArity : String → Option Nat
  | "constructor" => some 1
  | "hasOwnProperty" => some 1
  | "isPrototypeOf" => some 1
  | "propertyIsEnumerable" => some 1
  | "toLocaleString" => some 0
  | "toString" => some 0
  | "valueOf" => some 0
  | "__defineGetter__" => some 2
  | "__defineSetter__" => some 2
  | "__lookupGetter__" => some 1
  | "__lookupSetter__" => some 1
  | "__proto__" => some 0
  | _ => none

/-- Outcome of the property read `milestones[title]` on the plain object
built by `_.groupBy(milestones, 'title')` (line 144/148). `own` is a hit
on an own property: the encounter-ordered, never-empty group of
milestones with exactly that title. A miss does not always read as
`undefined`: the plain object inherits from `Object.prototype`, so a
title naming one of its members reads as that inherited, truthy value —
`inherited n` records how many elements `_.map` iterates over it. Only
the remaining titles read as `undefined` (`undef`), which is falsy. -/
inductive GroupRead where
  | own (ms : List TaggedMilestone)
  | inherited (mapLen : Nat)
  | undef
deriving DecidableEq

/-- Looking up one title in `_.groupBy(milestones, 'title')`, prototype
chain included: a non-empty own group shadows any inherited member; an
absent title reads as the inherited `Object.prototype` member when it
names one, and as `undefined` otherwise. -/
def groupLookup (ms : List TaggedMilestone) (title : String) : GroupRead :=
  let own := ms.filter (fun m => m.title == title)
  if own.isEmpty then
    match objectProtoArity title with
    | some n => GroupRead.inherited n
    | none => GroupRead.undef
  else GroupRead.own own

/-- The payload of one `updateMilestone` call issued by `closeMilestones`
(lines 155–161). -/
structure UpdateCall where
  user : String
  repo : String
  number : Nat
  title : String
  state : String
deriving DecidableEq

/-- How a `closeMilestones` call can fail. `cbErr` is an error passed to
the main callback; `thrownTypeErr` is the TypeError thrown by line 144
(`milestones[title]` with `milestones === undefined`); `thrownRefErr` is
the ReferenceError thrown by line 163 (`org + '/' + repo` with neither
identifier in scope); `thrownMapTypeErr` is the TypeError thrown inside
`_.map(matches, ...)` at line 153 when `matches` is an inherited
`Object.prototype` member treated as array-like — the iterated elements
are `undefined`, so `match.repo` throws. -/
inductive CloseErr where
  | cbErr (e : AttrErr)
  | thrownTypeErr
  | thrownRefErr (name : String)
  | thrownMapTypeErr
deriving DecidableEq

/-- The `updateMilestone` payload built for one matching milestone
(lines 153–160): the slug tag is split again on `'/'` and the update sets
`state: 'closed'`. -/
def mkUpdateCall (m : TaggedMilestone) : UpdateCall :=
  { user := (splitSlash m.repo).getD 0 ""
  , repo := (splitSlash m.repo).getD 1 ""
  , number := m.number
  , title := m.title
  , state := "closed" }

/-- One updater closure of `closeMilestones` (lines 154–169): on client
failure the handler executes `err.repo = org + '/' + repo`, but neither
`org` nor `repo` is in scope there, so it throws a ReferenceError instead
of invoking its callback; on success the updated milestone is passed
through. -/
def closeMilestonesUpdater (resp : Except GhErr RawMilestone) :
    Except CloseErr RawMilestone :=
  match resp with
  | Except.error _ => Except.error (CloseErr.thrownRefErr "org is not defined")
  | Except.ok resp => Except.ok resp

/-- Embeds `closeMilestones` (src/sprinter.js lines 141–175), instrumented
with the list of `updateMilestone` payloads it dispatches. `milResponses`
are the client's `getAllMilestones` responses per repo; `updResponses` are
the client's `updateMilestone` responses, one per dispatched update, in
dispatch order. Line 144 evaluates `milestones[title]` before the `err`
check, so when milestone aggregation fails, `milestones` is `undefined`
and a TypeError is thrown instead of the error being propagated. On a
miss, `if (!matches)` returns `[]` only when the read produced the falsy
`undefined`; an inherited `Object.prototype` member is truthy, so the
code falls through to `_.map(matches, ...)`, which iterates `mapLen`
elements: zero iterations leave an empty updater list (so
`async.parallel([], cb)` reports `[]`), while one or more iterate
`undefined` and throw a TypeError at `match.repo` (line 153) before any
update is dispatched. -/
def closeMilestones (repos : List Repo)
    (milResponses : List (Except GhErr (List RawMilestone)))
    (title : String) (updResponses : List (Except GhErr RawMilestone)) :
    Except CloseErr (List RawMilestone) × List UpdateCall :=
  match getMilestonesFlattened repos milResponses with
  | Except.error _ => (Except.error CloseErr.thrownTypeErr, [])
  | Except.ok flat =>
    match groupLookup flat title with
    | GroupRead.undef => (Except.ok [], [])
    | GroupRead.inherited n =>
      if n = 0 then (Except.ok [], [])
      else (Except.error CloseErr.thrownMapTypeErr, [])
    | GroupRead.own found =>
      (asyncParallel ((found.zip updResponses).map
          (fun mu => closeMilestonesUpdater mu.2)),
       found.map mkUpdateCall)

/-- The payload of one `createMilestone` call issued by `createMilestones`
(lines 185–188): `_.extend({user: org, repo: repo}, milestone)` — a fresh
object per branch, the template's own properties assigned over it. -/
def createMilestonePayload (r : Repo) (milestone : Obj) : Obj :=
  jsExtend [("user", JsVal.str r.1), ("repo", JsVal.str r.2)] milestone

/-- One per-repo branch of `createMilestones` (lines 189–196): failures
attributed to the repo, the created milestone passed through. -/
def createMilestonesBranch (r : Repo) (resp : Except GhErr RawMilestone) :
    Except AttrErr RawMilestone :=
  match resp with
  | Except.error e => Except.error { msg := e.msg, repo := slugOf r }
  | Except.ok m => Except.ok m

/-- Embeds `createMilestones` (src/sprinter.js lines 182–198),
instrumented with the list of dispatched `createMilestone` payloads (one
per configured repo, in configured order, via `_eachRepo`). -/
def createMilestones (repos : List Repo) (milestone : Obj)
    (responses : List (Except GhErr RawMilestone)) :
    Except AttrErr (List RawMilestone) × List Obj :=
  (asyncParallel ((repos.zip responses).map
      (fun rr => createMilestonesBranch rr.1 rr.2)),
   repos.map (fun r => createMilestonePayload r milestone))

/-! Helper lemmas about the embedded primitives. -/

theorem asyncParallel_map_ok {α β ε : Type} (g : α → β) (l : List α) :
    asyncParallel (l.map (fun x => (Except.ok (g x) : Except ε β))) =
      Except.ok (l.map g) := by
  induction l with
  | nil => rfl
  | cons a t ih => simp [asyncParallel, ih]

theorem asyncParallel_zip_map_ok {α β γ ε : Type}
    (branch : α → Except GhErr β → Except ε γ) (g : α → β → γ)
    (hb : ∀ a b, branch a (Except.ok b) = Except.ok (g a b))
    (l : List α) (oks : List β) :
    asyncParallel ((l.zip (oks.map Except.ok)).map
        (fun rr => branch rr.1 rr.2)) =
      Except.ok ((l.zip oks).map (fun rr => g rr.1 rr.2)) := by
  induction l generalizing oks with
  | nil => rfl
  | cons a t ih =>
    cases oks with
    | nil => rfl
    | cons b bs =>
      have h2 := ih bs
      simp only [List.zip] at h2 ⊢
      simp [asyncParallel, hb, h2]

theorem jsExtend_cons (d : Obj) (p : String × JsVal) (s : Obj) :
    jsExtend d (p :: s) = jsExtend (objSet d p.1 p.2) s := rfl

theorem objGet_objSet_self (o : Obj) (k : String) (v : JsVal) :
    objGet (objSet o k v) k = some v := by
  induction o with
  | nil => simp [objSet, objGet]
  | cons p rest ih =>
    by_cases h : p.1 = k
    · simp [objSet, h, objGet]
    · simpa [objSet, h, objGet, List.find?] using ih

theorem objGet_objSet_ne (o : Obj) (k k2 : String) (v : JsVal)
    (h : k ≠ k2) :
    objGet (objSet o k v) k2 = objGet o k2 := by
  have hne : (k == k2) = false := beq_eq_false_iff_ne.mpr h
  induction o with
  | nil => simp [objSet, objGet, List.find?, hne]
  | cons p rest ih =>
    by_cases hp : p.1 = k
    · have hne2 : (p.1 == k2) = false := by rw [hp]; exact hne
      simp [objSet, hp, objGet, List.find?, hne, hne2]
    · by_cases hp2 : p.1 = k2
      · simp [objSet, hp, objGet, List.find?, hp2,
          show k2 ≠ k from fun hh => h hh.symm]
      · have e1 : (p.1 == k2) = false := beq_eq_false_iff_ne.mpr hp2
        simpa [objSet, hp, objGet, List.find?, e1] using ih

theorem objGet_jsExtend_of_not_mem_keys (d src : Obj) (k : String)
    (h : ∀ p ∈ src, p.1 ≠ k) :
    objGet (jsExtend d src) k = objGet d k := by
  induction src generalizing d with
  | nil => rfl
  | cons q s ih =>
    rw [jsExtend_cons, ih _ (fun p hp => h p (List.mem_cons_of_mem _ hp)),
      objGet_objSet_ne _ _ _ _ (h q (List.mem_cons_self _ _))]

theorem objGet_jsExtend_of_mem (src : Obj) (p : String × JsVal) :
    (src.map Prod.fst).Nodup → p ∈ src →
    ∀ d : Obj, objGet (jsExtend d src) p.1 = some p.2 := by
  induction src with
  | nil => intro _ hp _; cases hp
  | cons q s ih =>
    intro hnd hp d
    rw [List.map_cons, List.nodup_cons] at hnd
    rw [jsExtend_cons]
    rcases List.mem_cons.mp hp with rfl | hp2
    · have hnot : ∀ r ∈ s, r.1 ≠ p.1 := by
        intro r hr heq
        exact hnd.1 (heq ▸ List.mem_map_of_mem Prod.fst hr)
      rw [objGet_jsExtend_of_not_mem_keys _ _ _ hnot, objGet_objSet_self]
    · exact ih hnd.2 hp2 (objSet d q.1 q.2)

theorem sortIssuesEnum_perm (issues : List TaggedIssue) :
    (sortIssuesEnum issues).Perm issues.enum :=
  (List.reverse_perm _).trans (List.perm_insertionSort _ _)

theorem enum_map_snd_self (issues : List TaggedIssue) :
    issues.enum.map Prod.snd = issues := by
  rw [List.enum_eq_zip_range, List.map_snd_zip]
  simp

theorem sortIssues_perm (issues : List TaggedIssue) :
    (sortIssues issues).Perm issues := by
  have h1 : (sortIssues issues).Perm (issues.enum.map Prod.snd) :=
    (sortIssuesEnum_perm issues).map Prod.snd
  rwa [enum_map_snd_self] at h1

theorem pairwise_ne_fst_enum (issues : List TaggedIssue) :
    List.Pairwise (fun p q : Nat × TaggedIssue => p.1 ≠ q.1) issues.enum := by
  have hlt : List.Pairwise (fun a b : Nat => a < b)
      (List.map Prod.fst issues.enum) := by
    rw [List.enum_eq_zip_range, List.map_fst_zip _ _ (by simp)]
    exact List.pairwise_lt_range _
  exact (List.pairwise_map.mp hlt).imp (fun h => Nat.ne_of_lt h)

theorem foldl_heapSet_getElem_ne {β : Type} (l : List β) (fref uref : Nat)
    (hne : fref ≠ uref) (f : Heap → β → Obj) :
    ∀ h : Heap,
      (l.foldl (fun h r => heapSet h fref (f h r)) h)[uref]? = h[uref]? := by
  induction l with
  | nil => intro h; rfl
  | cons b t ih =>
    intro h
    rw [List.foldl_cons, ih, heapSet, List.getElem?_set_ne hne]

theorem splitSlashAux_ne_nil (l : List Char) : splitSlashAux l ≠ [] := by
  induction l with
  | nil => simp [splitSlashAux]
  | cons c rest ih =>
    simp only [splitSlashAux]
    rcases hs : splitSlashAux rest with _ | ⟨seg, segs⟩
    · exact absurd hs ih
    · by_cases hc : c = '/' <;> simp [hc]

theorem splitSlashAux_no_slash (l : List Char) (h : Not ('/' ∈ l)) :
    splitSlashAux l = [l] := by
  induction l with
  | nil => rfl
  | cons c rest ih =>
    have hc : c ≠ '/' := fun hh => h (hh ▸ List.mem_cons_self _ _)
    have hrest : Not ('/' ∈ rest) := fun hh => h (List.mem_cons_of_mem _ hh)
    simp only [splitSlashAux, ih hrest]
    simp [hc]

theorem splitSlashAux_split (org rep : List Char) (horg : Not ('/' ∈ org))
    (hrep : Not ('/' ∈ rep)) :
    splitSlashAux (org ++ '/' :: rep) = [org, rep] := by
  induction org with
  | nil =>
    simp only [List.nil_append, splitSlashAux, splitSlashAux_no_slash rep hrep]
    simp
  | cons c rest ih =>
    have hc : c ≠ '/' := fun hh => horg (hh ▸ List.mem_cons_self _ _)
    have hrest : Not ('/' ∈ rest) := fun hh => horg (List.mem_cons_of_mem _ hh)
    simp only [List.cons_append, splitSlashAux, List.append_eq]
    rw [ih hrest]
    simp [hc]

theorem asyncParallel_zip_one_error {α β γ ε : Type}
    (branch : α → Except GhErr β → Except ε γ) (g : α → β → γ)
    (hb : ∀ a b, branch a (Except.ok b) = Except.ok (g a b))
    (rpre rpost : List α) (r : α) (pre : List β)
    (post : List (Except GhErr β)) (e : GhErr) (err : ε)
    (he : branch r (Except.error e) = Except.error err) :
    rpre.length = pre.length →
    asyncParallel (((rpre ++ r :: rpost).zip
        (pre.map Except.ok ++ Except.error e :: post)).map
      (fun rr => branch rr.1 rr.2)) = Except.error err := by
  induction rpre generalizing pre with
  | nil =>
    intro hlen
    cases pre with
    | nil => simp [asyncParallel, he]
    | cons _ _ => simp at hlen
  | cons a t ih =>
    intro hlen
    cases pre with
    | nil => simp at hlen
    | cons p ps =>
      have h2 := ih ps (by simpa using hlen)
      simp only [List.zip] at h2 ⊢
      simp only [List.cons_append, List.map_cons, List.zipWith_cons_cons,
        asyncParallel, hb, List.append_eq, h2]

/-! Claim theorems. -/

/-- C1: the claim states that each concurrent per-repo branch of
`getIssues` receives its own fresh copy of the merged filter set, never
visible to or mutated by another branch. The code instead passes the one
shared merged-filter object to every branch: with repos `a/x` and `b/y`,
both branches dispatch the same reference (reference 1), and once both
branches have run their `_.extend(filters, {user, repo})`, that single
object carries `user: "b", repo: "y"` — the `a/x` branch's payload object
has been overwritten by the other branch. -/
theorem getIssues_shared_filter_object :
    (getIssuesDispatch [("a", "x"), ("b", "y")] [[]] 0).2.2 = [1, 1] ∧
    heapGet (getIssuesDispatch [("a", "x"), ("b", "y")] [[]] 0).1 1 =
      [("state", JsVal.str "open"), ("user", JsVal.str "b"),
        ("repo", JsVal.str "y")] := by
  constructor
  · rfl
  · rfl

/-- C4 counterexample: the claim states that two issues with equal
`updated_at` keep their original encounter order in the `sortIssues`
output. On the two-issue input below (equal timestamps, encounter order
number 1 then number 2) the output is number 2 then number 1: `_.sortBy`
is stable ascending, and the trailing `.reverse()` reverses the tie
order as well. -/
theorem sortIssues_ties_reversed_counterexample :
    sortIssues
        [{ number := 1, updated_at := 5, repo := "o/a" },
         { number := 2, updated_at := 5, repo := "o/a" }] =
      [{ number := 2, updated_at := 5, repo := "o/a" },
       { number := 1, updated_at := 5, repo := "o/a" }] ∧
    ([{ number := 2, updated_at := 5, repo := "o/a" },
      { number := 1, updated_at := 5, repo := "o/a" }] : List TaggedIssue) ≠
      [{ number := 1, updated_at := 5, repo := "o/a" },
       { number := 2, updated_at := 5, repo := "o/a" }] := by
  constructor
  · rfl
  · decide

/-- C5 counterexample: the claim states that construction fails with
`InvalidSlugError` whenever a slug does not contain exactly one separator
producing two non-empty segments. The code performs no validation at all:
the separator-free slug `"ab"` is accepted and converted to the
one-segment identifier `["ab"]`, and `"a/b/c"` to a three-segment one;
no error value or exception exists anywhere on this code path. -/
theorem convertSlugs_no_validation_counterexample :
    convertSlugsToObjects ["ab", "a/b/c"] = [["ab"], ["a", "b", "c"]] ∧
    (["ab"] : List String).length ≠ 2 := by
  constructor
  · rfl
  · decide

/-- C6: the claim states that when milestone aggregation fails,
`closeMilestones` completes with that same failure propagated unchanged.
In the code, line 144 evaluates `milestones[title]` before the `err`
check; on failure `milestones` is `undefined`, so a TypeError is thrown
and the intended propagation branch `if (err) mainCallback(err)` is never
reached: the caller sees a thrown TypeError, not the aggregation error
attributed to `o/a`. -/
theorem closeMilestones_swallows_aggregation_failure :
    closeMilestones [("o", "a")] [Except.error { msg := "boom" }] "Sprint" [] =
      (Except.error CloseErr.thrownTypeErr, []) ∧
    CloseErr.thrownTypeErr ≠
      CloseErr.cbErr { msg := "boom", repo := "o/a" } := by
  constructor
  · rfl
  · decide

/-- C7: the claim states that a failing `updateMilestone` surfaces a
single error carrying the failing repo's slug together with the cause.
In the code, the failure handler at line 163 runs
`err.repo = org + '/' + repo`, but neither `org` nor `repo` is in scope
inside `closeMilestones`, so a ReferenceError is thrown instead: the
outcome carries neither the repo slug `o/a` nor the underlying cause
`boom`. -/
theorem closeMilestones_update_failure_misattributed :
    closeMilestones [("o", "a")] [Except.ok [{ number := 1, title := "S" }]]
        "S" [Except.error { msg := "boom" }] =
      (Except.error (CloseErr.thrownRefErr "org is not defined"),
       [{ user := "o", repo := "a", number := 1, title := "S",
          state := "closed" }]) := by
  rfl

/-- C10: `getIssues` never mutates the caller-supplied filters object.
The default `{state: "open"}` is merged into a newly allocated object
(line 79 reads `userFilters` but mutates only the fresh literal), and the
per-repo annotations of line 81 mutate that fresh merged object; the
caller's object, at reference `uref` in the heap, holds exactly the keys
and values it held before the call. -/
theorem getIssues_caller_filters_intact (repos : List Repo) (h0 : Heap)
    (uref : Nat) (h : uref < h0.length) :
    ((getIssuesDispatch repos h0 uref).1)[uref]? = h0[uref]? := by
  unfold getIssuesDispatch
  simp only []
  rw [foldl_heapSet_getElem_ne _ _ _ (Nat.ne_of_gt h) _,
    List.getElem?_append]
  rw [if_pos h]

/-- C10 witness: the heap with one caller object `{state: "closed"}` at
reference 0 is untouched by a two-repo dispatch. -/
theorem getIssues_caller_filters_intact_witness :
    0 < ([[("state", JsVal.str "closed")]] : Heap).length ∧
    ((getIssuesDispatch [("a", "x"), ("b", "y")]
        [[("state", JsVal.str "closed")]] 0).1)[0]? =
      ([[("state", JsVal.str "closed")]] : Heap)[0]? :=
  ⟨by decide,
   getIssues_caller_filters_intact [("a", "x"), ("b", "y")]
     [[("state", JsVal.str "closed")]] 0 (by decide)⟩

/-- C4 amended: the sequence returned by `getIssues` is sorted
non-increasing by `updated_at`, but for items with equal `updated_at`
the original encounter order is reversed in the output, not preserved:
`_.sortBy` sorts ascending stably (ties by original index), and the
trailing `.reverse()` flips tie order together with everything else. The
first conjunct is the non-increasing property of the output; the second,
on the index-carrying form, states that among equal-`updated_at` items
the original indices appear strictly decreasing; the third ties the two
forms together. -/
theorem sortIssues_sorted_desc_ties_reversed (issues : List TaggedIssue) :
    List.Pairwise (fun a b : TaggedIssue => b.updated_at ≤ a.updated_at)
      (sortIssues issues) ∧
    List.Pairwise (fun p q : Nat × TaggedIssue =>
        p.2.updated_at = q.2.updated_at → q.1 < p.1)
      (sortIssuesEnum issues) ∧
    sortIssues issues = (sortIssuesEnum issues).map Prod.snd := by
  have hs : List.Sorted sortByRel (List.insertionSort sortByRel issues.enum) :=
    List.sorted_insertionSort sortByRel issues.enum
  have hne : List.Pairwise (fun p q : Nat × TaggedIssue => p.1 ≠ q.1)
      (List.insertionSort sortByRel issues.enum) :=
    (((List.perm_insertionSort sortByRel issues.enum).pairwise_iff
      (fun h => h.symm)).mpr (pairwise_ne_fst_enum issues))
  refine ⟨?_, ?_, rfl⟩
  · unfold sortIssues sortIssuesEnum
    rw [List.pairwise_map, List.pairwise_reverse]
    refine hs.imp ?_
    intro p q hpq
    rcases hpq with hlt | ⟨heq, _⟩
    · exact Nat.le_of_lt hlt
    · exact Nat.le_of_eq heq
  · unfold sortIssuesEnum
    rw [List.pairwise_reverse]
    refine (hs.and hne).imp ?_
    intro p q hpq
    rcases hpq with ⟨hr, hn⟩
    intro heq
    rcases hr with hlt | ⟨heq2, hle⟩
    · exact absurd heq (Nat.ne_of_lt hlt).symm
    · exact Nat.lt_of_le_of_ne hle hn

/-- C2: if exactly one of the configured repos' `listIssues` calls fails
during `getIssues`, the whole call fails with a single error carrying
that repo's slug (`err.repo = org + '/' + repo`, line 87), and no issue
data from any repo is returned: the outcome is `Except.error`, which
carries no issue list at all. The failing repo is `r`, sitting between
the all-succeeding prefix `rpre`/`pre` and suffix `rpost`/`post`. -/
theorem getIssues_single_failure (rpre rpost : List Repo) (r : Repo)
    (pre post : List (List RawIssue)) (e : GhErr)
    (hlen : rpre.length = pre.length) :
    getIssuesResult (rpre ++ r :: rpost)
        (pre.map Except.ok ++ Except.error e :: post.map Except.ok) =
      Except.error { msg := e.msg, repo := slugOf r } := by
  unfold getIssuesResult
  rw [asyncParallel_zip_one_error getIssuesBranch
    (fun rr is => is.map (tagIssue rr)) (fun _ _ => rfl)
    rpre rpost r pre (post.map Except.ok) e
    { msg := e.msg, repo := slugOf r } rfl hlen]

/-- C2 witness: three repos, the middle one failing, produce the single
attributed error and no data. -/
theorem getIssues_single_failure_witness :
    ([("o", "a")] : List Repo).length =
      [[({ number := 1, updated_at := 5 } : RawIssue)]].length ∧
    getIssuesResult [("o", "a"), ("o", "b"), ("o", "c")]
        [Except.ok [{ number := 1, updated_at := 5 }],
         Except.error { msg := "boom" },
         Except.ok [{ number := 2, updated_at := 7 }]] =
      Except.error { msg := "boom", repo := "o/b" } :=
  ⟨by decide,
   getIssues_single_failure [("o", "a")] [("o", "c")] ("o", "b")
     [[{ number := 1, updated_at := 5 }]] [[{ number := 2, updated_at := 7 }]]
     { msg := "boom" } (by decide)⟩

/-- C3: when every configured repo succeeds, `getIssues` returns a list
whose length is the sum of the per-repo result counts, and every returned
item carries its one source-repo tag (the single `repo` field written at
line 91) equal to the canonical slug of the repo whose response the item
actually came from. -/
theorem getIssues_all_success (repos : List Repo) (oks : List (List RawIssue))
    (hlen : repos.length = oks.length) :
    ∃ out : List TaggedIssue,
      getIssuesResult repos (oks.map Except.ok) = Except.ok out ∧
      out.length = (oks.map List.length).sum ∧
      ∀ x ∈ out, ∃ k, ∃ hk : k < repos.length, ∃ hk2 : k < oks.length,
        x.repo = slugOf (repos.get ⟨k, hk⟩) ∧
        ({ number := x.number, updated_at := x.updated_at } : RawIssue) ∈
          oks.get ⟨k, hk2⟩ := by
  have htasks := asyncParallel_zip_map_ok getIssuesBranch
    (fun rr is => is.map (tagIssue rr)) (fun _ _ => rfl) repos oks
  refine ⟨sortIssues (((repos.zip oks).map
    (fun rr => rr.2.map (tagIssue rr.1))).flatten), ?_, ?_, ?_⟩
  · unfold getIssuesResult
    rw [htasks]
  · rw [(sortIssues_perm _).length_eq, List.length_flatten, List.map_map]
    have hcomp : (List.length ∘ fun rr : Repo × List RawIssue =>
        rr.2.map (tagIssue rr.1)) =
        (fun rr : Repo × List RawIssue => rr.2.length) := by
      funext rr
      simp
    rw [hcomp]
    have h2 : (repos.zip oks).map (fun rr => rr.2.length) =
        oks.map List.length := by
      have hsnd := List.map_snd_zip repos oks (le_of_eq hlen.symm)
      calc (repos.zip oks).map (fun rr => rr.2.length)
          = ((repos.zip oks).map Prod.snd).map List.length := by
            rw [List.map_map]
            rfl
        _ = oks.map List.length := by rw [hsnd]
    rw [h2]
  · intro x hx
    have hx2 : x ∈ ((repos.zip oks).map
        (fun rr => rr.2.map (tagIssue rr.1))).flatten :=
      ((sortIssues_perm _).mem_iff).mp hx
    rcases List.mem_flatten.mp hx2 with ⟨l, hl, hxl⟩
    rcases List.mem_map.mp hl with ⟨rr, hrr, rfl⟩
    rcases List.mem_iff_get.mp hrr with ⟨n, hn⟩
    have hkr : (n : Nat) < repos.length :=
      lt_of_lt_of_le n.isLt
        (by rw [List.length_zip]; exact min_le_left _ _)
    have hko : (n : Nat) < oks.length :=
      lt_of_lt_of_le n.isLt
        (by rw [List.length_zip]; exact min_le_right _ _)
    rcases List.mem_map.mp hxl with ⟨raw, hraw, hxeq⟩
    have hz : rr = (repos.get ⟨n, hkr⟩, oks.get ⟨n, hko⟩) := by
      rw [← hn]
      simp [List.get_eq_getElem, List.getElem_zip]
    refine ⟨n, hkr, hko, ?_, ?_⟩
    · rw [← hxeq]
      show slugOf rr.1 = slugOf (repos.get ⟨n, hkr⟩)
      rw [hz]
    · rw [← hxeq]
      show ({ number := raw.number, updated_at := raw.updated_at } :
        RawIssue) ∈ oks.get ⟨n, hko⟩
      have hraweta : ({ number := raw.number, updated_at := raw.updated_at } :
          RawIssue) = raw := rfl
      have h22 : rr.2 = oks.get ⟨n, hko⟩ := by rw [hz]
      rw [hraweta, ← h22]
      exact hraw

/-- C3 witness: two repos with one issue each produce two tagged issues
whose length and tags satisfy the general theorem. -/
theorem getIssues_all_success_witness :
    ([("o", "a"), ("p", "b")] : List Repo).length =
      [[({ number := 1, updated_at := 5 } : RawIssue)],
       [{ number := 2, updated_at := 7 }]].length ∧
    (∃ out : List TaggedIssue,
      getIssuesResult [("o", "a"), ("p", "b")]
          ([[({ number := 1, updated_at := 5 } : RawIssue)],
            [{ number := 2, updated_at := 7 }]].map Except.ok) =
        Except.ok out ∧
      out.length = ([[({ number := 1, updated_at := 5 } : RawIssue)],
        [{ number := 2, updated_at := 7 }]].map List.length).sum ∧
      ∀ x ∈ out, ∃ k, ∃ hk : k < ([("o", "a"), ("p", "b")] : List Repo).length,
        ∃ hk2 : k < [[({ number := 1, updated_at := 5 } : RawIssue)],
          [{ number := 2, updated_at := 7 }]].length,
        x.repo = slugOf (([("o", "a"), ("p", "b")] : List Repo).get ⟨k, hk⟩) ∧
        ({ number := x.number, updated_at := x.updated_at } : RawIssue) ∈
          [[({ number := 1, updated_at := 5 } : RawIssue)],
           [{ number := 2, updated_at := 7 }]].get ⟨k, hk2⟩) :=
  ⟨by decide,
   getIssues_all_success [("o", "a"), ("p", "b")]
     [[{ number := 1, updated_at := 5 }], [{ number := 2, updated_at := 7 }]]
     (by decide)⟩

/-- C5 amended: the constructor performs no slug validation and cannot
fail with `InvalidSlugError` (`convertSlugsToObjects` is a total map with
no error path). Every slug is split on `'/'`: the output has one
identifier per slug, same order; a well-formed slug `org ++ "/" ++ repo`
whose two segments contain no separator yields exactly the pair
`[org, repo]`, while malformed slugs are silently accepted and yield
identifiers with a different number of segments. -/
theorem convertSlugs_amended (slugs : List String) :
    (convertSlugsToObjects slugs).length = slugs.length ∧
    (∀ k, ∀ hk : k < slugs.length,
      ∃ hk2 : k < (convertSlugsToObjects slugs).length,
        (convertSlugsToObjects slugs).get ⟨k, hk2⟩ =
          splitSlash (slugs.get ⟨k, hk⟩)) ∧
    (∀ org rep : List Char, Not ('/' ∈ org) → Not ('/' ∈ rep) →
      splitSlash (String.mk (org ++ '/' :: rep)) =
        [String.mk org, String.mk rep]) := by
  refine ⟨List.length_map _ _, ?_, ?_⟩
  · intro k hk
    refine ⟨by simpa [convertSlugsToObjects] using hk, ?_⟩
    simp [convertSlugsToObjects, List.get_eq_getElem]
  · intro org rep horg hrep
    unfold splitSlash
    rw [show (String.mk (org ++ '/' :: rep)).data = org ++ '/' :: rep
      from rfl]
    rw [splitSlashAux_split org rep horg hrep]
    rfl

/-- C5 amended witness: the well-formed slug `"o/r"` parses to the pair
`["o", "r"]`, by the general theorem applied at segment lists with no
separator. -/
theorem convertSlugs_amended_witness :
    splitSlash (String.mk (['o'] ++ '/' :: ['r'])) =
      [String.mk ['o'], String.mk ['r']] :=
  (convertSlugs_amended []).2.2 ['o'] ['r'] (by decide) (by decide)

/-- C8 counterexample: the claim states that for any title absent from
the aggregated groups, `closeMilestones(title)` returns an empty list.
The title `"constructor"` is absent from the single group `"S"`, but the
read `milestones["constructor"]` on the plain `_.groupBy` object yields
the inherited, truthy `Object` constructor, so `if (!matches)` does not
fire; `_.map` then treats the function (arity 1) as array-like and the
updater builder throws a TypeError at `match.repo` — the call does not
return an empty list. (Zero `updateMilestone` calls are still
dispatched.) -/
theorem closeMilestones_inherited_title_counterexample :
    closeMilestones [("o", "a")] [Except.ok [{ number := 1, title := "S" }]]
        "constructor" [] =
      (Except.error CloseErr.thrownMapTypeErr, []) ∧
    ((Except.error CloseErr.thrownMapTypeErr, []) :
        Except CloseErr (List RawMilestone) × List UpdateCall) ≠
      (Except.ok [], []) := by
  constructor
  · rfl
  · simp

/-- C8 amended: with milestone aggregation succeeding, for any title
absent from the grouped milestones that does not name an inherited
`Object.prototype` member, `closeMilestones` returns an empty list and
dispatches zero `updateMilestone` calls (the lookup reads the falsy
`undefined`, so the `if (!matches)` miss branch fires). Absent titles
that do name a prototype member read an inherited truthy value instead:
those still dispatch zero updates, but arity-≥1 members (such as
`"constructor"`) make the call throw rather than return. -/
theorem closeMilestones_noop_on_missing_title (repos : List Repo)
    (milResponses : List (Except GhErr (List RawMilestone)))
    (title : String) (updResponses : List (Except GhErr RawMilestone))
    (flat : List TaggedMilestone)
    (hok : getMilestonesFlattened repos milResponses = Except.ok flat)
    (hmiss : flat.filter (fun m => m.title == title) = [])
    (hproto : objectProtoArity title = none) :
    closeMilestones repos milResponses title updResponses =
      (Except.ok [], []) := by
  unfold closeMilestones
  rw [hok]
  simp [groupLookup, hmiss, hproto]

/-- C8 witness: one repo with one milestone titled `"S"`; closing the
absent, non-prototype title `"T"` returns the empty list and dispatches
no update call. -/
theorem closeMilestones_noop_on_missing_title_witness :
    getMilestonesFlattened [("o", "a")]
        [Except.ok [{ number := 1, title := "S" }]] =
      Except.ok [{ number := 1, title := "S", repo := "o/a" }] ∧
    ([{ number := 1, title := "S", repo := "o/a" }] :
      List TaggedMilestone).filter (fun m => m.title == "T") = [] ∧
    objectProtoArity "T" = none ∧
    closeMilestones [("o", "a")] [Except.ok [{ number := 1, title := "S" }]]
        "T" [] = (Except.ok [], []) :=
  ⟨rfl, rfl, rfl,
   closeMilestones_noop_on_missing_title [("o", "a")]
     [Except.ok [{ number := 1, title := "S" }]] "T" []
     [{ number := 1, title := "S", repo := "o/a" }] rfl rfl rfl⟩

/-- C9: `createMilestones` dispatches exactly one `createMilestone` call
per configured repo, in configured order; each payload carries the repo's
organization under `user` and repository under `repo` plus every field of
the template (for templates that do not themselves define `user` or
`repo`); and on full success the result is one created milestone per
repo, in the canonical configured order. -/
theorem createMilestones_spec (repos : List Repo) (tmpl : Obj)
    (oks : List RawMilestone)
    (hlen : repos.length = oks.length)
    (hnd : (tmpl.map Prod.fst).Nodup)
    (huser : ∀ p ∈ tmpl, p.1 ≠ "user")
    (hrepo : ∀ p ∈ tmpl, p.1 ≠ "repo") :
    (createMilestones repos tmpl (oks.map Except.ok)).1 = Except.ok oks ∧
    (createMilestones repos tmpl (oks.map Except.ok)).2 =
      repos.map (fun r => createMilestonePayload r tmpl) ∧
    (createMilestones repos tmpl (oks.map Except.ok)).2.length =
      repos.length ∧
    ∀ r : Repo,
      objGet (createMilestonePayload r tmpl) "user" =
        some (JsVal.str r.1) ∧
      objGet (createMilestonePayload r tmpl) "repo" =
        some (JsVal.str r.2) ∧
      ∀ p ∈ tmpl, objGet (createMilestonePayload r tmpl) p.1 = some p.2 := by
  refine ⟨?_, rfl, by simp [createMilestones], ?_⟩
  · have h1 : (createMilestones repos tmpl (oks.map Except.ok)).1 =
        asyncParallel ((repos.zip (oks.map Except.ok)).map
          (fun rr => createMilestonesBranch rr.1 rr.2)) := rfl
    rw [h1, asyncParallel_zip_map_ok createMilestonesBranch (fun _ m => m)
      (fun _ _ => rfl) repos oks]
    have hsnd : (repos.zip oks).map
        (fun rr : Repo × RawMilestone => rr.2) = oks := by
      have h2 := List.map_snd_zip repos oks (le_of_eq hlen.symm)
      simpa using h2
    simp only [hsnd]
  · intro r
    refine ⟨?_, ?_, ?_⟩
    · rw [createMilestonePayload,
        objGet_jsExtend_of_not_mem_keys _ _ _ huser]
      rfl
    · rw [createMilestonePayload,
        objGet_jsExtend_of_not_mem_keys _ _ _ hrepo]
      rfl
    · intro p hp
      exact objGet_jsExtend_of_mem tmpl p hnd hp _

/-- C9 witness: two repos and the template `{title: "X", due_on: "D"}`,
with both creations succeeding. -/
theorem createMilestones_spec_witness :
    ([("o", "a"), ("p", "b")] : List Repo).length =
      ([{ number := 1, title := "X" },
        { number := 2, title := "X" }] : List RawMilestone).length ∧
    (([("title", JsVal.str "X"), ("due_on", JsVal.str "D")] : Obj).map
      Prod.fst).Nodup ∧
    ((createMilestones [("o", "a"), ("p", "b")]
        [("title", JsVal.str "X"), ("due_on", JsVal.str "D")]
        (([{ number := 1, title := "X" },
           { number := 2, title := "X" }] : List RawMilestone).map
          Except.ok)).1 =
      Except.ok [{ number := 1, title := "X" }, { number := 2, title := "X" }]) ∧
    objGet (createMilestonePayload ("o", "a")
        [("title", JsVal.str "X"), ("due_on", JsVal.str "D")]) "user" =
      some (JsVal.str "o") :=
  ⟨by decide, by decide,
   (createMilestones_spec [("o", "a"), ("p", "b")]
     [("title", JsVal.str "X"), ("due_on", JsVal.str "D")]
     [{ number := 1, title := "X" }, { number := 2, title := "X" }]
     (by decide) (by decide) (by decide) (by decide)).1,
   ((createMilestones_spec [("o", "a"), ("p", "b")]
     [("title", JsVal.str "X"), ("due_on", JsVal.str "D")]
     [{ number := 1, title := "X" }, { number := 2, title := "X" }]
     (by decide) (by decide) (by decide) (by decide)).2.2.2 ("o", "a")).1⟩
